import Mathlib

/-!
Shallow embedding of `src/frontend/src/data/generateTexasData.js`.

JS `Number` arithmetic is modelled over `ℝ`; `Math.exp` is `Real.exp`;
`Math.round` rounds half toward positive infinity; the spread forms
`Math.min(...xs)` / `Math.max(...xs)` are left folds of `min` / `max`.
The external hex-grid service `h3-js` (`polygonToCells`, `cellToLatLng`)
is out of scope per the specification and is modelled as an abstract
`Tiler` record supplied to each field builder.
-/

namespace MorphMap

/-- JS Math.round: round half toward positive infinity. -/
noncomputable def jsRound (x : ℝ) : ℤ := Int.floor (x + 1 / 2)

/-- An influence source record: location, signed weight, anisotropic radii. -/
structure Source where
  lat : ℝ
  lng : ℝ
  weight : ℝ
  radLat : ℝ
  radLng : ℝ

/-- Texas bounding polygon, the hardcoded vertex list in (lat, lng) order. -/
noncomputable def TEXAS_POLYGON : List (ℝ × ℝ) :=
  [(31.901, -106.645646), (31.784, -106.528879), (31.562, -106.277244),
   (30.84, -105.4), (29.672, -104.977665), (29.45, -104.561),
   (28.98, -103.941), (28.97, -103.118), (29.76, -102.48),
   (29.77, -101.66), (28.19, -100.96), (28.17, -100.11),
   (27.66, -99.93), (27.02, -99.44), (26.38, -99.45),
   (26.43, -99.1), (26.07, -98.08), (25.87, -97.36),
   (25.97, -97.14), (26.06, -97.02), (28.3, -96.7),
   (28.6, -96.8), (28.97, -95.96), (29.08, -94.74),
   (29.72, -93.84), (30.05, -93.93), (30.13, -93.7),
   (31.0, -93.7), (31.56, -93.52), (33.0, -93.53),
   (33.552, -94.043), (33.638, -94.484), (33.937, -95.154),
   (33.778, -96.0), (33.985, -96.66), (33.853, -97.46),
   (34.0, -98.0), (34.21, -98.95), (34.41, -99.57),
   (34.56, -100.0), (36.5, -100.0), (36.5, -103.0),
   (32.0, -103.0), (31.901, -106.645646)]

/-- The hardcoded supply-source table (wind, nuclear, gas, coal, solar). -/
noncomputable def SUPPLY_SOURCES : List Source :=
  [⟨36.1, -101.5, 0.98, 1.4, 2.2⟩,
   ⟨32.264, -100.344, 0.95, 2.5, 1.2⟩,
   ⟨32.25, -101.5, 0.75, 1.8, 1.0⟩,
   ⟨26.5, -97.5, 0.75, 0.8, 1.4⟩,
   ⟨28.1, -97.4, 0.55, 0.7, 1.1⟩,
   ⟨32.298, -97.786, 1.0, 0.45, 0.45⟩,
   ⟨28.795, -96.048, 1.0, 0.45, 0.45⟩,
   ⟨31.8, -103.2, 0.85, 1.5, 1.5⟩,
   ⟨31.9, -102.1, 0.72, 1.2, 1.2⟩,
   ⟨35.22, -101.8, 0.88, 1.0, 1.0⟩,
   ⟨32.261, -94.565, 0.88, 0.6, 0.6⟩,
   ⟨32.1, -94.5, 0.72, 1.8, 0.8⟩,
   ⟨32.314, -102.51, 0.60, 0.9, 0.9⟩,
   ⟨31.05, -103.7, 0.48, 0.8, 0.8⟩,
   ⟨31.5, -103.0, 0.65, 1.8, 1.4⟩]

/-- The hardcoded demand-sink table (cities, negative weights). -/
noncomputable def DEMAND_SINKS : List Source :=
  [⟨29.749, -95.358, -1.0, 1.4, 1.4⟩,
   ⟨32.779, -96.809, -0.95, 1.1, 1.1⟩,
   ⟨32.725, -97.321, -0.80, 0.9, 0.9⟩,
   ⟨29.424, -98.491, -0.92, 1.1, 1.1⟩,
   ⟨30.267, -97.743, -0.85, 0.9, 0.9⟩,
   ⟨31.772, -106.461, -0.65, 0.7, 0.7⟩,
   ⟨27.801, -97.396, -0.50, 0.6, 0.6⟩,
   ⟨31.923, -102.222, -0.52, 0.6, 0.6⟩,
   ⟨33.577, -101.855, -0.48, 0.55, 0.55⟩,
   ⟨35.222, -101.831, -0.48, 0.55, 0.55⟩,
   ⟨30.068, -94.130, -0.40, 0.6, 0.6⟩,
   ⟨31.549, -97.147, -0.35, 0.5, 0.5⟩,
   ⟨32.735, -97.108, -0.35, 0.5, 0.5⟩]

/-- The anisotropic Gaussian contribution of one source at a point. -/
noncomputable def anisotropicGaussian (cellLat cellLng : ℝ) (source : Source) : ℝ :=
  let dlat := cellLat - source.lat
  let dlng := cellLng - source.lng
  source.weight *
    Real.exp (-(dlat * dlat / (2 * source.radLat * source.radLat) +
        dlng * dlng / (2 * source.radLng * source.radLng)))

/-- One step of the seeded linear-congruential recurrence
(`s = (s * 1664525 + 1013904223) & 0xffffffff` on 32-bit state). -/
def lcgNext (s : ℕ) : ℕ := (s * 1664525 + 1013904223) % 4294967296

/-- The value the seeded generator returns from state `s`
(`(s >>> 0) / 0xffffffff`). -/
noncomputable def lcgOut (s : ℕ) : ℝ := (s : ℝ) / 4294967295

/-- The generator state after `n` updates starting from `seed`. -/
def lcgState (seed : ℕ) : ℕ → ℕ
  | 0 => seed
  | n + 1 => lcgNext (lcgState seed n)

/-- The i-th value (0-based) drawn from the generator seeded with `seed`:
the i-th call performs the (i+1)-st state update and divides. -/
noncomputable def randAt (seed i : ℕ) : ℝ := lcgOut (lcgState seed (i + 1))

/-- JS `Math.min(...xs)` over a materialized array: a left fold of `min`
(the empty case, `Infinity` in JS, only feeds code paths that emit nothing,
and is given the junk value 0 here). -/
noncomputable def listMin : List ℝ → ℝ
  | [] => 0
  | x :: xs => xs.foldl min x

/-- JS `Math.max(...xs)` over a materialized array, as a left fold of `max`. -/
noncomputable def listMax : List ℝ → ℝ
  | [] => 0
  | x :: xs => xs.foldl max x

/-- The external hex-grid service (h3-js), consumed as a black box:
polygon-to-cells enumeration and cell-to-centroid lookup. -/
structure Tiler where
  polygonToCells : List (ℝ × ℝ) → ℕ → List ℕ
  cellToLatLng : ℕ → ℝ × ℝ

/-- Texas lat/lng bounds used by the gradient (temperature) field. -/
noncomputable def LAT_MIN : ℝ := 25.8
/-- North bound. -/
noncomputable def LAT_MAX : ℝ := 36.5
/-- West bound. -/
noncomputable def LNG_MIN : ℝ := -106.6
/-- East bound. -/
noncomputable def LNG_MAX : ℝ := -93.5

/-- A record of the temperature field: cell id, score, Fahrenheit display. -/
structure TempRecord where
  h3Index : ℕ
  score : ℝ
  tempF : ℤ

/-- A record of the surplus (hex) field: cell id, score, MWh display. -/
structure HexRecord where
  h3Index : ℕ
  score : ℝ
  surplusMwh : ℤ

/-- A record of the combined field: cell id, recomputed score, both displays. -/
structure CombinedRecord where
  h3Index : ℕ
  score : ℝ
  surplusMwh : ℤ
  tempF : ℤ

/-- The body of the temperature map for one cell, given the drawn value `r`:
two linear gradients, bounded noise, clamp, and Fahrenheit display mapping. -/
noncomputable def tempRecordAt (p : ℝ × ℝ) (r : ℝ) (h3Index : ℕ) : TempRecord :=
  let latNorm := (p.1 - LAT_MIN) / (LAT_MAX - LAT_MIN)
  let lngNorm := (p.2 - LNG_MIN) / (LNG_MAX - LNG_MIN)
  let base := 0.65 * (1 - latNorm) + 0.20 * (1 - lngNorm)
  let noise := (r - 0.5) * 0.12
  let score := max 0 (min 1 (base + noise))
  ⟨h3Index, score, jsRound (65 + score * 50)⟩

/-- The `cells.map` of the temperature builder, with the mutable generator
register made explicit: each element draws exactly one value, in list order. -/
noncomputable def tempPass (centroid : ℕ → ℝ × ℝ) : ℕ → List ℕ → List TempRecord
  | _, [] => []
  | s, c :: cs =>
    let s1 := lcgNext s
    tempRecordAt (centroid c) (lcgOut s1) c :: tempPass centroid s1 cs

/-- `generateTexasTemperatureData`: tile, then map each cell through the
gradient formula with the generator seeded at 99. -/
noncomputable def generateTexasTemperatureData (tiler : Tiler) (resolution : ℕ) :
    List TempRecord :=
  tempPass tiler.cellToLatLng 99 (tiler.polygonToCells TEXAS_POLYGON resolution)

/-- The raw-score accumulation loop: `for (const src of srcs) score += ...`. -/
noncomputable def addContributions (lat lng : ℝ) (init : ℝ) (srcs : List Source) : ℝ :=
  srcs.foldl (fun acc src => acc + anisotropicGaussian lat lng src) init

/-- The raw influence value at a point: start at 0, add every supply source,
then add every demand sink, in list order. -/
noncomputable def evalSources (lat lng : ℝ) : ℝ :=
  addContributions lat lng (addContributions lat lng 0 SUPPLY_SOURCES) DEMAND_SINKS

/-- First pass of the surplus builder: the raw score of every cell. -/
noncomputable def hexRawScores (tiler : Tiler) (resolution : ℕ) : List ℝ :=
  (tiler.polygonToCells TEXAS_POLYGON resolution).map fun c =>
    let p := tiler.cellToLatLng c
    evalSources p.1 p.2

/-- The empirical range `maxRaw - minRaw` of the surplus builder's raw pass. -/
noncomputable def hexRawRange (tiler : Tiler) (resolution : ℕ) : ℝ :=
  listMax (hexRawScores tiler resolution) - listMin (hexRawScores tiler resolution)

/-- Second pass of the surplus builder (the min–max normalizer): for each
`(cellId, raw)` pair, in order, draw one value from the generator, form
bounded noise of amplitude `amp`, and clamp the rescaled raw value.
Modelling note: real division is total, so on a zero-range field the term
`(raw - minRaw) / 0` takes the junk value 0 where the JS computes `0/0 =
NaN` and `Math.min`/`Math.max` propagate it. Theorems about the
normalized scores therefore carry a nonzero-range hypothesis to stay
within the faithful regime; the degenerate regime is documented
separately as the absent error path. -/
noncomputable def normalizePass (minRaw range amp : ℝ) :
    ℕ → List (ℕ × ℝ) → List (ℕ × ℝ)
  | _, [] => []
  | s, cr :: rest =>
    let s1 := lcgNext s
    let noise := (lcgOut s1 - 0.5) * amp
    let score := max 0 (min 1 ((cr.2 - minRaw) / range + noise))
    (cr.1, score) :: normalizePass minRaw range amp s1 rest

/-- `generateTexasHexData`: tile, compute all raw scores, take their min and
max, then normalize with jitter amplitude 0.06 from the generator seeded at
42, and attach the MWh display value. -/
noncomputable def generateTexasHexData (tiler : Tiler) (resolution : ℕ) :
    List HexRecord :=
  let cells := tiler.polygonToCells TEXAS_POLYGON resolution
  let rawScores := hexRawScores tiler resolution
  let minRaw := listMin rawScores
  let maxRaw := listMax rawScores
  let range := maxRaw - minRaw
  (normalizePass minRaw range 0.06 42 (cells.zip rawScores)).map fun cs =>
    ⟨cs.1, cs.2, jsRound (cs.2 * 8000)⟩

/-- The combined field's elementwise raw formula over the two record lists:
`surplus.score * (1 - temp.score)`, position by position. -/
noncomputable def combineRaw : List HexRecord → List TempRecord → List ℝ
  | s :: ss, t :: ts => s.score * (1 - t.score) :: combineRaw ss ts
  | _, _ => []

/-- The raw list the combined builder normalizes. -/
noncomputable def combinedRawList (tiler : Tiler) (resolution : ℕ) : List ℝ :=
  combineRaw (generateTexasHexData tiler resolution)
    (generateTexasTemperatureData tiler resolution)

/-- The empirical range `maxRaw - minRaw` of the combined builder's raw list. -/
noncomputable def combinedRawRange (tiler : Tiler) (resolution : ℕ) : ℝ :=
  listMax (combinedRawList tiler resolution) - listMin (combinedRawList tiler resolution)

/-- The final map of the combined builder: one record per surplus record,
score rescaled by the raw list's min and range (no clamp, no jitter),
display values passed through from the component records. -/
noncomputable def combinePass (minRaw range : ℝ) :
    List HexRecord → List TempRecord → List ℝ → List CombinedRecord
  | s :: ss, t :: ts, r :: rs =>
    ⟨s.h3Index, (r - minRaw) / range, s.surplusMwh, t.tempF⟩ ::
      combinePass minRaw range ss ts rs
  | _, _, _ => []

/-- `generateTexasCombinedData`: build both component fields, form the raw
products, and re-normalize by the raw min and range. -/
noncomputable def generateTexasCombinedData (tiler : Tiler) (resolution : ℕ) :
    List CombinedRecord :=
  let surplus := generateTexasHexData tiler resolution
  let temp := generateTexasTemperatureData tiler resolution
  let raw := combineRaw surplus temp
  let minRaw := listMin raw
  let maxRaw := listMax raw
  let range := maxRaw - minRaw
  combinePass minRaw range surplus temp raw

/-! ### Helper lemmas -/

theorem foldl_min_le_init (xs : List ℝ) (x : ℝ) : xs.foldl min x ≤ x := by
  induction xs generalizing x with
  | nil => exact le_rfl
  | cons y ys ih => exact le_trans (ih (min x y)) (min_le_left x y)

theorem foldl_min_le_mem {a : ℝ} (xs : List ℝ) (x : ℝ) (h : a ∈ xs) :
    xs.foldl min x ≤ a := by
  induction xs generalizing x with
  | nil => cases h
  | cons y ys ih =>
    rcases List.mem_cons.mp h with rfl | hmem
    · exact le_trans (foldl_min_le_init ys (min x a)) (min_le_right x a)
    · exact ih (min x y) hmem

theorem le_foldl_max_init (xs : List ℝ) (x : ℝ) : x ≤ xs.foldl max x := by
  induction xs generalizing x with
  | nil => exact le_rfl
  | cons y ys ih => exact le_trans (le_max_left x y) (ih (max x y))

theorem le_foldl_max_mem {a : ℝ} (xs : List ℝ) (x : ℝ) (h : a ∈ xs) :
    a ≤ xs.foldl max x := by
  induction xs generalizing x with
  | nil => cases h
  | cons y ys ih =>
    rcases List.mem_cons.mp h with rfl | hmem
    · exact le_trans (le_max_right x a) (le_foldl_max_init ys (max x a))
    · exact ih (max x y) hmem

theorem listMin_le_of_mem {a : ℝ} {l : List ℝ} (h : a ∈ l) : listMin l ≤ a := by
  cases l with
  | nil => cases h
  | cons x xs =>
    rcases List.mem_cons.mp h with rfl | hmem
    · exact foldl_min_le_init xs a
    · exact foldl_min_le_mem xs x hmem

theorem le_listMax_of_mem {a : ℝ} {l : List ℝ} (h : a ∈ l) : a ≤ listMax l := by
  cases l with
  | nil => cases h
  | cons x xs =>
    rcases List.mem_cons.mp h with rfl | hmem
    · exact le_foldl_max_init xs a
    · exact le_foldl_max_mem xs x hmem

theorem clamp_bounds (z : ℝ) : 0 ≤ max 0 (min 1 z) ∧ max 0 (min 1 z) ≤ 1 :=
  ⟨le_max_left 0 (min 1 z), max_le zero_le_one (min_le_left 1 z)⟩

theorem normalizePass_score_shape {minRaw range amp : ℝ} {s : ℕ}
    {l : List (ℕ × ℝ)} {p : ℕ × ℝ} (h : p ∈ normalizePass minRaw range amp s l) :
    ∃ z, p.2 = max 0 (min 1 z) := by
  induction l generalizing s with
  | nil => simp [normalizePass] at h
  | cons cr rest ih =>
    simp only [normalizePass, List.mem_cons] at h
    rcases h with rfl | hmem
    · exact ⟨_, rfl⟩
    · exact ih hmem

theorem tempPass_score_shape {centroid : ℕ → ℝ × ℝ} {s : ℕ} {cs : List ℕ}
    {r : TempRecord} (h : r ∈ tempPass centroid s cs) :
    ∃ z, r.score = max 0 (min 1 z) := by
  induction cs generalizing s with
  | nil => simp [tempPass] at h
  | cons c rest ih =>
    simp only [tempPass, List.mem_cons] at h
    rcases h with rfl | hmem
    · exact ⟨_, rfl⟩
    · exact ih hmem

theorem combinePass_score_shape {minRaw range : ℝ} {ss : List HexRecord}
    {ts : List TempRecord} {rs : List ℝ} {rec : CombinedRecord}
    (h : rec ∈ combinePass minRaw range ss ts rs) :
    ∃ r ∈ rs, rec.score = (r - minRaw) / range := by
  induction ss generalizing ts rs with
  | nil => simp [combinePass] at h
  | cons s srest ih =>
    cases ts with
    | nil => simp [combinePass] at h
    | cons t trest =>
      cases rs with
      | nil => simp [combinePass] at h
      | cons r rrest =>
        simp only [combinePass, List.mem_cons] at h
        rcases h with rfl | hmem
        · exact ⟨r, List.mem_cons_self r rrest, rfl⟩
        · obtain ⟨r', hr', heq⟩ := ih hmem
          exact ⟨r', List.mem_cons_of_mem r hr', heq⟩

/-! ### C1: every emitted score lies in [0,1] -/

/-- C1: every record emitted by any of the three field builders has a score
in [0,1] on every non-degenerate input: the surplus builder clamps (its
nonzero-raw-range hypothesis excludes the zero-range fields on which the
JS division yields NaN through the clamp, the regime the degenerate-field
finding documents), the temperature builder clamps unconditionally (its
gradient formula divides by constant nonzero bounds only), and the
combined builder's un-clamped re-normalization stays in [0,1] whenever its
own raw range is nonzero (with the surplus range also nonzero so the
component scores it multiplies are NaN-free). -/
theorem spec_C1 (tiler : Tiler) (resolution : ℕ) :
    (hexRawRange tiler resolution ≠ 0 →
      ∀ r ∈ generateTexasHexData tiler resolution, 0 ≤ r.score ∧ r.score ≤ 1) ∧
    (∀ r ∈ generateTexasTemperatureData tiler resolution, 0 ≤ r.score ∧ r.score ≤ 1) ∧
    (hexRawRange tiler resolution ≠ 0 → combinedRawRange tiler resolution ≠ 0 →
      ∀ r ∈ generateTexasCombinedData tiler resolution, 0 ≤ r.score ∧ r.score ≤ 1) := by
  refine ⟨?_, ?_, ?_⟩
  · intro _ r hr
    simp only [generateTexasHexData, List.mem_map] at hr
    obtain ⟨p, hp, rfl⟩ := hr
    obtain ⟨z, hz⟩ := normalizePass_score_shape hp
    have hb : (0 : ℝ) ≤ p.2 ∧ p.2 ≤ 1 := by rw [hz]; exact clamp_bounds z
    exact hb
  · intro r hr
    simp only [generateTexasTemperatureData] at hr
    obtain ⟨z, hz⟩ := tempPass_score_shape hr
    rw [hz]
    exact clamp_bounds z
  · intro _ hrange r hr
    simp only [generateTexasCombinedData] at hr
    obtain ⟨raw, hraw, heq⟩ := combinePass_score_shape hr
    have hraw' : raw ∈ combinedRawList tiler resolution := hraw
    have hmin : listMin (combinedRawList tiler resolution) ≤ raw :=
      listMin_le_of_mem hraw'
    have hmax : raw ≤ listMax (combinedRawList tiler resolution) :=
      le_listMax_of_mem hraw'
    have hr0 : 0 ≤ combinedRawRange tiler resolution := by
      simpa [combinedRawRange, sub_nonneg] using le_trans hmin hmax
    have hpos : 0 < combinedRawRange tiler resolution :=
      lt_of_le_of_ne hr0 (Ne.symm hrange)
    have heq' : r.score =
        (raw - listMin (combinedRawList tiler resolution)) /
          combinedRawRange tiler resolution := by
      simpa [combinedRawRange, combinedRawList] using heq
    constructor
    · rw [heq']
      exact div_nonneg (sub_nonneg.mpr hmin) hr0
    · rw [heq']
      rw [div_le_one hpos]
      simp only [combinedRawRange]
      linarith

/-! ### C8, C9: pointwise Gaussian facts -/

/-- C8: with nonzero radii, a source evaluated exactly at its own location
contributes exactly its weight, and in particular the source
(32.0, -97.0, weight 1.0, radii 1.0) evaluated at (32.0, -97.0) yields 1.0. -/
theorem spec_C8 :
    (∀ s : Source, s.radLat ≠ 0 → s.radLng ≠ 0 →
      anisotropicGaussian s.lat s.lng s = s.weight) ∧
    anisotropicGaussian 32 (-97) ⟨32, -97, 1, 1, 1⟩ = 1 := by
  have h1 : ∀ s : Source, s.radLat ≠ 0 → s.radLng ≠ 0 →
      anisotropicGaussian s.lat s.lng s = s.weight := by
    intro s _ _
    simp [anisotropicGaussian]
  exact ⟨h1, h1 ⟨32, -97, 1, 1, 1⟩ one_ne_zero one_ne_zero⟩

/-- Witness for C8 at the concrete example source of the specification. -/
theorem spec_C8_witness :
    (1 : ℝ) ≠ 0 ∧ anisotropicGaussian 32 (-97) ⟨32, -97, 1, 1, 1⟩ = 1 :=
  ⟨one_ne_zero, spec_C8.1 ⟨32, -97, 1, 1, 1⟩ one_ne_zero one_ne_zero⟩

/-- C9: two sources at the same location with equal radii and opposite
weights cancel: running the accumulation loop over exactly that pair yields
raw value 0 at every evaluation point. -/
theorem spec_C9 (lat lng sLat sLng w rLat rLng : ℝ) :
    addContributions lat lng 0
      [⟨sLat, sLng, w, rLat, rLng⟩, ⟨sLat, sLng, -w, rLat, rLng⟩] = 0 := by
  simp only [addContributions, List.foldl_cons, List.foldl_nil, anisotropicGaussian]
  ring

/-! ### C4: the raw value is the ordered sum of Gaussian contributions -/

theorem addContributions_eq_sum (lat lng init : ℝ) (srcs : List Source) :
    addContributions lat lng init srcs =
      init + (srcs.map fun s => anisotropicGaussian lat lng s).sum := by
  induction srcs generalizing init with
  | nil => simp [addContributions]
  | cons s rest ih =>
    simp only [addContributions, List.foldl_cons, List.map_cons, List.sum_cons] at *
    rw [ih]
    ring

/-- C4: each source's contribution is the anisotropic-Gaussian formula of the
specification, and the raw value at a point is the sum of the contributions
of all supply sources and all demand sinks, in source-list order. -/
theorem spec_C4 :
    (∀ (lat lng : ℝ) (s : Source), s.radLat ≠ 0 → s.radLng ≠ 0 →
      anisotropicGaussian lat lng s =
        s.weight * Real.exp (-((lat - s.lat) ^ 2 / (2 * s.radLat ^ 2) +
          (lng - s.lng) ^ 2 / (2 * s.radLng ^ 2)))) ∧
    (∀ lat lng : ℝ, evalSources lat lng =
      ((SUPPLY_SOURCES ++ DEMAND_SINKS).map
        fun s => anisotropicGaussian lat lng s).sum) := by
  constructor
  · intro lat lng s _ _
    simp only [anisotropicGaussian]
    have h : (lat - s.lat) * (lat - s.lat) / (2 * s.radLat * s.radLat) +
        (lng - s.lng) * (lng - s.lng) / (2 * s.radLng * s.radLng) =
        (lat - s.lat) ^ 2 / (2 * s.radLat ^ 2) +
          (lng - s.lng) ^ 2 / (2 * s.radLng ^ 2) := by
      ring
    rw [h]
  · intro lat lng
    rw [evalSources, addContributions_eq_sum, addContributions_eq_sum,
      List.map_append, List.sum_append]
    ring

/-- Witness for C4 with nonzero radii discharged at a concrete source. -/
theorem spec_C4_witness :
    (1 : ℝ) ≠ 0 ∧
    anisotropicGaussian 3 4 ⟨1, 2, 5, 1, 1⟩ =
      (5 : ℝ) * Real.exp (-(((3 : ℝ) - 1) ^ 2 / (2 * 1 ^ 2) +
        ((4 : ℝ) - 2) ^ 2 / (2 * 1 ^ 2))) :=
  ⟨one_ne_zero, spec_C4.1 3 4 ⟨1, 2, 5, 1, 1⟩ one_ne_zero one_ne_zero⟩

/-! ### C3: two-pass normalization with one seeded draw per cell -/

theorem lcgState_lcgNext (s : ℕ) : ∀ n, lcgState (lcgNext s) n = lcgState s (n + 1) := by
  intro n
  induction n with
  | zero => simp [lcgState]
  | succ n ih => simp [lcgState, ih]

theorem normalizePass_length (minRaw range amp : ℝ) :
    ∀ (l : List (ℕ × ℝ)) (s : ℕ), (normalizePass minRaw range amp s l).length = l.length := by
  intro l
  induction l with
  | nil => intro s; rfl
  | cons cr rest ih => intro s; simp [normalizePass, ih]

theorem tempPass_length (centroid : ℕ → ℝ × ℝ) :
    ∀ (cs : List ℕ) (s : ℕ), (tempPass centroid s cs).length = cs.length := by
  intro cs
  induction cs with
  | nil => intro s; rfl
  | cons c rest ih => intro s; simp [tempPass, ih]

theorem randAt_zero (s : ℕ) : randAt s 0 = lcgOut (lcgNext s) := rfl

theorem normalizePass_getElem? (minRaw range amp : ℝ) :
    ∀ (l : List (ℕ × ℝ)) (s i : ℕ) (p : ℕ × ℝ), l[i]? = some p →
      (normalizePass minRaw range amp s l)[i]? =
        some (p.1, max 0 (min 1 ((p.2 - minRaw) / range +
          (randAt s i - 0.5) * amp))) := by
  intro l
  induction l with
  | nil => intro s i p hp; simp at hp
  | cons cr rest ih =>
    intro s i p hp
    cases i with
    | zero =>
      simp only [List.getElem?_cons_zero, Option.some.injEq] at hp
      subst hp
      rw [randAt_zero]
      simp [normalizePass]
    | succ j =>
      simp only [List.getElem?_cons_succ] at hp
      simp only [normalizePass, List.getElem?_cons_succ]
      rw [ih (lcgNext s) j p hp]
      simp only [randAt, lcgState_lcgNext]

/-- C3: the normalizer is two-pass. Its second pass, for every raw field,
seed, and jitter amplitude, maps position i of the raw list to
clamp01((raw - minRaw) / range + (r - 0.5) * amp) where r is exactly the
i-th value of the generator stream started at the seed; and the surplus
builder runs this pass with the min and max of the complete raw-score list,
amplitude 0.06, and seed 42, with every raw value computed before any score. -/
theorem spec_C3 :
    (∀ (minRaw range amp : ℝ) (seed : ℕ) (l : List (ℕ × ℝ)) (i : ℕ) (p : ℕ × ℝ),
      l[i]? = some p →
        (normalizePass minRaw range amp seed l)[i]? =
          some (p.1, max 0 (min 1 ((p.2 - minRaw) / range +
            (randAt seed i - 0.5) * amp)))) ∧
    (∀ (tiler : Tiler) (resolution : ℕ),
      generateTexasHexData tiler resolution =
        (normalizePass (listMin (hexRawScores tiler resolution))
          (listMax (hexRawScores tiler resolution) -
            listMin (hexRawScores tiler resolution)) 0.06 42
          ((tiler.polygonToCells TEXAS_POLYGON resolution).zip
            (hexRawScores tiler resolution))).map fun cs =>
          ⟨cs.1, cs.2, jsRound (cs.2 * 8000)⟩) := by
  constructor
  · intro minRaw range amp seed l i p hp
    exact normalizePass_getElem? minRaw range amp l seed i p hp
  · intro tiler resolution
    simp only [generateTexasHexData]

/-- Witness for C3: the second-pass formula applied to a concrete one-cell
raw field at index 0. -/
theorem spec_C3_witness :
    ([((7 : ℕ), (0 : ℝ))][0]? = some (7, 0)) ∧
    (normalizePass 0 1 0 5 [(7, 0)])[0]? =
      some (7, max 0 (min 1 (((0 : ℝ) - 0) / 1 + (randAt 5 0 - 0.5) * 0))) :=
  ⟨rfl, spec_C3.1 0 1 0 5 [(7, 0)] 0 (7, 0) rfl⟩

/-! ### C2: the combined field's exact formula and its asymmetry -/

/-- The combined builder's operation abstracted over the two input score
lists: elementwise raw = a * (1 - b), then one min-max normalization pass. -/
noncomputable def combineOp (a b : List ℝ) : List ℝ :=
  let raw := List.zipWith (fun x y => x * (1 - y)) a b
  raw.map fun r => (r - listMin raw) / (listMax raw - listMin raw)

theorem combineRaw_eq_zipWith :
    ∀ (ss : List HexRecord) (ts : List TempRecord),
      combineRaw ss ts =
        List.zipWith (fun x y => x * (1 - y)) (ss.map HexRecord.score)
          (ts.map TempRecord.score) := by
  intro ss
  induction ss with
  | nil => intro ts; cases ts <;> rfl
  | cons s srest ih =>
    intro ts
    cases ts with
    | nil => rfl
    | cons t trest => simp [combineRaw, ih]

theorem combinePass_map_score (minRaw range : ℝ) :
    ∀ (ss : List HexRecord) (ts : List TempRecord),
      (combinePass minRaw range ss ts (combineRaw ss ts)).map CombinedRecord.score =
        (combineRaw ss ts).map fun r => (r - minRaw) / range := by
  intro ss
  induction ss with
  | nil => intro ts; cases ts <;> rfl
  | cons s srest ih =>
    intro ts
    cases ts with
    | nil => rfl
    | cons t trest => simp [combineRaw, combinePass, ih]

/-- C2: the combined field's scores are exactly the result of the
elementwise formula raw = surplusScore * (1 - temperatureScore) followed by
one further min-max normalization pass over the raw products (a pure
function of the two component score lists, drawing nothing from any seeded
generator), and that operation is not commutative in value in general. -/
theorem spec_C2 :
    (∀ (tiler : Tiler) (resolution : ℕ),
      (generateTexasCombinedData tiler resolution).map CombinedRecord.score =
        combineOp ((generateTexasHexData tiler resolution).map HexRecord.score)
          ((generateTexasTemperatureData tiler resolution).map TempRecord.score)) ∧
    (∃ a b : List ℝ, combineOp a b ≠ combineOp b a) := by
  constructor
  · intro tiler resolution
    simp only [generateTexasCombinedData]
    rw [combinePass_map_score]
    simp only [combineOp, combineRaw_eq_zipWith]
  · refine ⟨[1, 0], [0, 1 / 2], ?_⟩
    have h1 : combineOp [1, 0] [0, 1 / 2] = [1, 0] := by
      norm_num [combineOp, listMin, listMax]
    have h2 : combineOp [0, 1 / 2] [1, 0] = [0, 1] := by
      norm_num [combineOp, listMin, listMax]
    rw [h1, h2]
    intro h
    simp at h

/-! ### C10: the combined builder is a frame over its component fields -/

theorem combined_proj (minRaw range : ℝ) :
    ∀ (ss : List HexRecord) (ts : List TempRecord), ss.length = ts.length →
      (combinePass minRaw range ss ts (combineRaw ss ts)).length = ss.length ∧
      (combinePass minRaw range ss ts (combineRaw ss ts)).map CombinedRecord.h3Index =
        ss.map HexRecord.h3Index ∧
      (combinePass minRaw range ss ts (combineRaw ss ts)).map CombinedRecord.surplusMwh =
        ss.map HexRecord.surplusMwh ∧
      (combinePass minRaw range ss ts (combineRaw ss ts)).map CombinedRecord.tempF =
        ts.map TempRecord.tempF := by
  intro ss
  induction ss with
  | nil =>
    intro ts hlen
    cases ts with
    | nil => exact ⟨rfl, rfl, rfl, rfl⟩
    | cons t trest => simp at hlen
  | cons s srest ih =>
    intro ts hlen
    cases ts with
    | nil => simp at hlen
    | cons t trest =>
      simp only [List.length_cons, Nat.succ.injEq] at hlen
      obtain ⟨h1, h2, h3, h4⟩ := ih trest hlen
      refine ⟨?_, ?_, ?_, ?_⟩ <;>
        simp [combineRaw, combinePass, h1, h2, h3, h4]

theorem hexData_length (tiler : Tiler) (resolution : ℕ) :
    (generateTexasHexData tiler resolution).length =
      (tiler.polygonToCells TEXAS_POLYGON resolution).length := by
  simp only [generateTexasHexData, List.length_map, normalizePass_length,
    List.length_zip, hexRawScores, List.length_map, min_self]

theorem tempData_length (tiler : Tiler) (resolution : ℕ) :
    (generateTexasTemperatureData tiler resolution).length =
      (tiler.polygonToCells TEXAS_POLYGON resolution).length := by
  simp only [generateTexasTemperatureData, tempPass_length]

/-- C10: the combined builder emits exactly one record per surplus record,
in the same order with the same cell identifiers, passes the component
display values (surplusMwh, tempF) through unchanged, and recomputes only
the score. -/
theorem spec_C10 (tiler : Tiler) (resolution : ℕ) :
    (generateTexasCombinedData tiler resolution).length =
      (generateTexasHexData tiler resolution).length ∧
    (generateTexasCombinedData tiler resolution).map CombinedRecord.h3Index =
      (generateTexasHexData tiler resolution).map HexRecord.h3Index ∧
    (generateTexasCombinedData tiler resolution).map CombinedRecord.surplusMwh =
      (generateTexasHexData tiler resolution).map HexRecord.surplusMwh ∧
    (generateTexasCombinedData tiler resolution).map CombinedRecord.tempF =
      (generateTexasTemperatureData tiler resolution).map TempRecord.tempF := by
  have hlen : (generateTexasHexData tiler resolution).length =
      (generateTexasTemperatureData tiler resolution).length := by
    rw [hexData_length, tempData_length]
  have h := combined_proj
    (listMin (combineRaw (generateTexasHexData tiler resolution)
      (generateTexasTemperatureData tiler resolution)))
    (listMax (combineRaw (generateTexasHexData tiler resolution)
      (generateTexasTemperatureData tiler resolution)) -
      listMin (combineRaw (generateTexasHexData tiler resolution)
        (generateTexasTemperatureData tiler resolution)))
    (generateTexasHexData tiler resolution)
    (generateTexasTemperatureData tiler resolution) hlen
  exact h

/-! ### C5: reproducibility of field generation -/

theorem tempPass_congr {cen1 cen2 : ℕ → ℝ × ℝ} :
    ∀ (cs : List ℕ) (s : ℕ), (∀ c ∈ cs, cen1 c = cen2 c) →
      tempPass cen1 s cs = tempPass cen2 s cs := by
  intro cs
  induction cs with
  | nil => intro s _; rfl
  | cons c rest ih =>
    intro s h
    simp only [tempPass]
    rw [h c (List.mem_cons_self c rest),
      ih (lcgNext s) fun x hx => h x (List.mem_cons_of_mem c hx)]

/-- C5: field generation is deterministic. The builders are pure functions
of the seed and the tiler's answers: any two tiler instances that return
the same cell list and the same centroids produce bit-for-bit identical
scored fields, since the seeded generator is a pure recurrence consumed in
the fixed cell order. -/
theorem spec_C5 (t1 t2 : Tiler) (resolution : ℕ)
    (hcells : t1.polygonToCells TEXAS_POLYGON resolution =
      t2.polygonToCells TEXAS_POLYGON resolution)
    (hcent : ∀ c ∈ t1.polygonToCells TEXAS_POLYGON resolution,
      t1.cellToLatLng c = t2.cellToLatLng c) :
    generateTexasHexData t1 resolution = generateTexasHexData t2 resolution ∧
    generateTexasTemperatureData t1 resolution =
      generateTexasTemperatureData t2 resolution ∧
    generateTexasCombinedData t1 resolution = generateTexasCombinedData t2 resolution := by
  have hraw : hexRawScores t1 resolution = hexRawScores t2 resolution := by
    simp only [hexRawScores]
    rw [← hcells]
    exact List.map_congr_left fun c hc => by rw [hcent c hc]
  have hhex : generateTexasHexData t1 resolution = generateTexasHexData t2 resolution := by
    simp only [generateTexasHexData, hraw, hcells]
  have htemp : generateTexasTemperatureData t1 resolution =
      generateTexasTemperatureData t2 resolution := by
    simp only [generateTexasTemperatureData]
    rw [← hcells]
    exact tempPass_congr _ 99 hcent
  exact ⟨hhex, htemp, by simp only [generateTexasCombinedData, hhex, htemp]⟩

/-- A concrete three-cell tiler (all centroids at the origin). -/
noncomputable def demoTiler : Tiler :=
  ⟨fun _ _ => [0, 1, 2], fun _ => ((0 : ℝ), (0 : ℝ))⟩

/-- A second tiler instance, of different construction, that answers the
demo queries identically. -/
noncomputable def demoTiler2 : Tiler :=
  ⟨fun _ r => if r = 5 then [0, 1, 2] else [], fun _ => ((0 : ℝ), (0 : ℝ))⟩

/-- Witness for C5: two distinct tiler instances with identical answers
produce identical fields. -/
theorem spec_C5_witness :
    generateTexasHexData demoTiler 5 = generateTexasHexData demoTiler2 5 ∧
    generateTexasTemperatureData demoTiler 5 =
      generateTexasTemperatureData demoTiler2 5 ∧
    generateTexasCombinedData demoTiler 5 = generateTexasCombinedData demoTiler2 5 :=
  spec_C5 demoTiler demoTiler2 5 rfl fun _ _ => rfl

/-! ### C6: zero raw range is not surfaced (the code divides anyway) -/

/-- A tiler whose answer is a single cell: the raw field is uniform, so the
normalization range max - min is zero. -/
noncomputable def oneCellTiler : Tiler :=
  ⟨fun _ _ => [7], fun _ => ((0 : ℝ), (0 : ℝ))⟩

/-- C6 (contra the claim, documenting the code): on a uniform raw field the
surplus builder's range is 0, yet it still emits a normally-formed success
record, dividing by the zero range inside the score term instead of
surfacing any degenerate-field condition. In JS the emitted score is NaN
(0/0 propagated through Math.min/Math.max); the real-valued model gives the
division-by-zero term the junk value 0. -/
theorem spec_C6 :
    hexRawRange oneCellTiler 5 = 0 ∧
    (generateTexasHexData oneCellTiler 5).length = 1 ∧
    (generateTexasHexData oneCellTiler 5).map HexRecord.score =
      [max 0 (min 1 ((evalSources 0 0 - evalSources 0 0) /
        (evalSources 0 0 - evalSources 0 0) + (randAt 42 0 - 0.5) * 0.06))] := by
  refine ⟨?_, ?_, ?_⟩
  · simp [hexRawRange, hexRawScores, oneCellTiler, listMin, listMax]
  · rw [hexData_length]
    rfl
  · simp only [randAt_zero]
    simp [generateTexasHexData, hexRawScores, oneCellTiler, normalizePass,
      listMin, listMax]

/-! ### C7: an empty tiling yields a silent empty success field -/

/-- A tiler whose answer is empty, as h3 returns for a degenerate
(zero-area) boundary polygon. -/
noncomputable def emptyTiler : Tiler :=
  ⟨fun _ _ => [], fun _ => ((0 : ℝ), (0 : ℝ))⟩

/-- C7 (contra the claim, documenting the code): when the tiler returns no
cells, every builder silently returns an empty success field; no
configuration error is raised anywhere (the builders have no error path at
all). -/
theorem spec_C7 :
    emptyTiler.polygonToCells TEXAS_POLYGON 5 = [] ∧
    generateTexasHexData emptyTiler 5 = [] ∧
    generateTexasTemperatureData emptyTiler 5 = [] ∧
    generateTexasCombinedData emptyTiler 5 = [] := by
  refine ⟨rfl, ?_, ?_, ?_⟩ <;>
    simp [generateTexasHexData, generateTexasTemperatureData,
      generateTexasCombinedData, hexRawScores, emptyTiler, normalizePass,
      tempPass, combinePass, combineRaw]

/-! ### Concrete evaluation of the demo run (for the witnesses) -/

theorem lcg42_1 : lcgNext 42 = 1083814273 := by norm_num [lcgNext]

theorem lcg42_2 : lcgNext 1083814273 = 378494188 := by norm_num [lcgNext]

theorem lcg99_1 : lcgNext 99 = 1178692198 := by norm_num [lcgNext]

theorem lcg99_2 : lcgNext 1178692198 = 1109130893 := by norm_num [lcgNext]

/-! ### Separating the raw field at two far-field points

For the C1 witness a tiler with a provably nonzero surplus raw range is
needed. At evaluation points on the Roscoe corridor's longitude and far
north of it, the Roscoe term (the largest latitude radius, 2.5) dominates
every other Gaussian term by an enormous margin, so the raw values at
latitude offsets 1000 and 2000 can be separated with the elementary bound
x + 1 <= exp x. -/

theorem sum_eq_evalSources (lat lng : ℝ) :
    evalSources lat lng =
      ((SUPPLY_SOURCES ++ DEMAND_SINKS).map fun s =>
        anisotropicGaussian lat lng s).sum := by
  rw [evalSources, addContributions_eq_sum, addContributions_eq_sum,
    List.map_append, List.sum_append]
  ring

theorem abs_weight_exp_le {w X q : ℝ} (hw : |w| ≤ 1) (hq : q ≤ X) :
    |w * Real.exp (-X)| ≤ Real.exp (-q) := by
  rw [abs_mul, abs_of_pos (Real.exp_pos _)]
  have h1 : Real.exp (-X) ≤ Real.exp (-q) := Real.exp_le_exp.mpr (neg_le_neg hq)
  calc |w| * Real.exp (-X) ≤ 1 * Real.exp (-q) :=
        mul_le_mul hw h1 (Real.exp_pos _).le zero_le_one
    _ = Real.exp (-q) := one_mul _

theorem abs_anisotropicGaussian_le (lat lng : ℝ) (s : Source) (q : ℝ)
    (hw : |s.weight| ≤ 1)
    (hq : q ≤ (lat - s.lat) * (lat - s.lat) / (2 * s.radLat * s.radLat) +
      (lng - s.lng) * (lng - s.lng) / (2 * s.radLng * s.radLng)) :
    |anisotropicGaussian lat lng s| ≤ Real.exp (-q) :=
  abs_weight_exp_le hw hq

theorem sum_abs_le (f : Source → ℝ) (c : ℝ) :
    ∀ l : List Source, (∀ s ∈ l, |f s| ≤ c) →
      |(l.map f).sum| ≤ l.length * c := by
  intro l
  induction l with
  | nil => intro _; simp
  | cons s rest ih =>
    intro h
    simp only [List.map_cons, List.sum_cons, List.length_cons]
    have h1 := h s (List.mem_cons_self s rest)
    have h2 := ih fun x hx => h x (List.mem_cons_of_mem s hx)
    calc |f s + (rest.map f).sum| ≤ |f s| + |(rest.map f).sum| := abs_add _ _
      _ ≤ c + rest.length * c := add_le_add h1 h2
      _ = ((rest.length + 1 : ℕ) : ℝ) * c := by push_cast; ring

/-- The Roscoe wind-corridor source, the table entry with the largest
latitude radius. -/
noncomputable def ROSCOE : Source := ⟨32.264, -100.344, 0.95, 2.5, 1.2⟩

/-- The 27 configured sources other than Roscoe, in table order. -/
noncomputable def OTHER_SOURCES : List Source :=
  [⟨36.1, -101.5, 0.98, 1.4, 2.2⟩,
   ⟨32.25, -101.5, 0.75, 1.8, 1.0⟩,
   ⟨26.5, -97.5, 0.75, 0.8, 1.4⟩,
   ⟨28.1, -97.4, 0.55, 0.7, 1.1⟩,
   ⟨32.298, -97.786, 1.0, 0.45, 0.45⟩,
   ⟨28.795, -96.048, 1.0, 0.45, 0.45⟩,
   ⟨31.8, -103.2, 0.85, 1.5, 1.5⟩,
   ⟨31.9, -102.1, 0.72, 1.2, 1.2⟩,
   ⟨35.22, -101.8, 0.88, 1.0, 1.0⟩,
   ⟨32.261, -94.565, 0.88, 0.6, 0.6⟩,
   ⟨32.1, -94.5, 0.72, 1.8, 0.8⟩,
   ⟨32.314, -102.51, 0.60, 0.9, 0.9⟩,
   ⟨31.05, -103.7, 0.48, 0.8, 0.8⟩,
   ⟨31.5, -103.0, 0.65, 1.8, 1.4⟩,
   ⟨29.749, -95.358, -1.0, 1.4, 1.4⟩,
   ⟨32.779, -96.809, -0.95, 1.1, 1.1⟩,
   ⟨32.725, -97.321, -0.80, 0.9, 0.9⟩,
   ⟨29.424, -98.491, -0.92, 1.1, 1.1⟩,
   ⟨30.267, -97.743, -0.85, 0.9, 0.9⟩,
   ⟨31.772, -106.461, -0.65, 0.7, 0.7⟩,
   ⟨27.801, -97.396, -0.50, 0.6, 0.6⟩,
   ⟨31.923, -102.222, -0.52, 0.6, 0.6⟩,
   ⟨33.577, -101.855, -0.48, 0.55, 0.55⟩,
   ⟨35.222, -101.831, -0.48, 0.55, 0.55⟩,
   ⟨30.068, -94.130, -0.40, 0.6, 0.6⟩,
   ⟨31.549, -97.147, -0.35, 0.5, 0.5⟩,
   ⟨32.735, -97.108, -0.35, 0.5, 0.5⟩]

theorem sources_split (f : Source → ℝ) :
    ((SUPPLY_SOURCES ++ DEMAND_SINKS).map f).sum =
      f ROSCOE + ((OTHER_SOURCES).map f).sum := by
  simp only [SUPPLY_SOURCES, DEMAND_SINKS, OTHER_SOURCES, ROSCOE,
    List.cons_append, List.nil_append, List.map_cons, List.map_nil,
    List.sum_cons, List.sum_nil]
  ring

theorem othersA_bound : ∀ s ∈ OTHER_SOURCES,
    |anisotropicGaussian 1032.264 (-100.344) s| ≤ Real.exp (-150000) := by
  intro s hs
  simp only [OTHER_SOURCES, List.mem_cons, List.not_mem_nil, or_false] at hs
  rcases hs with rfl | rfl | rfl | rfl | rfl | rfl | rfl | rfl | rfl | rfl | rfl |
    rfl | rfl | rfl | rfl | rfl | rfl | rfl | rfl | rfl | rfl | rfl | rfl | rfl |
    rfl | rfl | rfl <;>
    exact abs_anisotropicGaussian_le _ _ _ _ (by norm_num [abs_le]) (by norm_num)

theorem allB_bound : ∀ s ∈ SUPPLY_SOURCES ++ DEMAND_SINKS,
    |anisotropicGaussian 2032.264 (-100.344) s| ≤ Real.exp (-300000) := by
  intro s hs
  simp only [SUPPLY_SOURCES, DEMAND_SINKS, List.mem_append, List.mem_cons,
    List.not_mem_nil, or_false] at hs
  rcases hs with (rfl | rfl | rfl | rfl | rfl | rfl | rfl | rfl | rfl | rfl |
    rfl | rfl | rfl | rfl | rfl) | (rfl | rfl | rfl | rfl | rfl | rfl | rfl |
    rfl | rfl | rfl | rfl | rfl | rfl) <;>
    exact abs_anisotropicGaussian_le _ _ _ _ (by norm_num [abs_le]) (by norm_num)

theorem roscoeA_exact :
    anisotropicGaussian 1032.264 (-100.344) ROSCOE = 0.95 * Real.exp (-80000) := by
  simp only [anisotropicGaussian, ROSCOE]
  norm_num

theorem EA_lower :
    0.95 * Real.exp (-80000) - 27 * Real.exp (-150000) ≤
      evalSources 1032.264 (-100.344) := by
  rw [sum_eq_evalSources, sources_split, roscoeA_exact]
  have hb := sum_abs_le (anisotropicGaussian 1032.264 (-100.344))
    (Real.exp (-150000)) OTHER_SOURCES othersA_bound
  have hlen : ((OTHER_SOURCES.length : ℕ) : ℝ) = 27 := by
    norm_num [OTHER_SOURCES]
  rw [hlen] at hb
  have := (abs_le.mp hb).1
  linarith

theorem EB_upper :
    |evalSources 2032.264 (-100.344)| ≤ 28 * Real.exp (-300000) := by
  rw [sum_eq_evalSources]
  have hb := sum_abs_le (anisotropicGaussian 2032.264 (-100.344))
    (Real.exp (-300000)) (SUPPLY_SOURCES ++ DEMAND_SINKS) allB_bound
  have hlen : (((SUPPLY_SOURCES ++ DEMAND_SINKS).length : ℕ) : ℝ) = 28 := by
    norm_num [SUPPLY_SOURCES, DEMAND_SINKS]
  rw [hlen] at hb
  exact hb

theorem EB_lt_EA :
    evalSources 2032.264 (-100.344) < evalSources 1032.264 (-100.344) := by
  have hA := EA_lower
  have hB := (abs_le.mp EB_upper).2
  have e70 : Real.exp (-70000 : ℝ) * 70001 ≤ 1 := by
    have h70 : (70001 : ℝ) ≤ Real.exp 70000 := by
      linarith [Real.add_one_le_exp (70000 : ℝ)]
    have hpos := Real.exp_pos (-70000 : ℝ)
    have h := mul_le_mul_of_nonneg_left h70 hpos.le
    rw [← Real.exp_add] at h
    norm_num at h
    linarith
  have esplit : Real.exp (-150000 : ℝ) = Real.exp (-80000) * Real.exp (-70000) := by
    rw [← Real.exp_add]
    norm_num
  have e300 : Real.exp (-300000 : ℝ) ≤ Real.exp (-150000) :=
    Real.exp_le_exp.mpr (by norm_num)
  have h55 : (55 : ℝ) * Real.exp (-70000) < 0.95 := by
    have hpos := Real.exp_pos (-70000 : ℝ)
    linarith
  have hmul : 55 * (Real.exp (-80000) * Real.exp (-70000)) <
      0.95 * Real.exp (-80000) := by
    have hpos := Real.exp_pos (-80000 : ℝ)
    nlinarith
  rw [esplit] at e300
  linarith

/-- The two-cell witness tiler: centroids on the Roscoe longitude at
latitude offsets 1000 and 2000 north of it, giving provably distinct raw
values and hence a nonzero surplus range. -/
noncomputable def witTiler : Tiler :=
  ⟨fun _ _ => [0, 1],
   fun c => if c = 0 then (1032.264, -100.344) else (2032.264, -100.344)⟩

theorem wit_cells : witTiler.polygonToCells TEXAS_POLYGON 5 = [0, 1] := rfl

theorem wit_rawScores :
    hexRawScores witTiler 5 =
      [evalSources 1032.264 (-100.344), evalSources 2032.264 (-100.344)] := rfl

theorem listMin_pair (a b : ℝ) : listMin [a, b] = min a b := by simp [listMin]

theorem listMax_pair (a b : ℝ) : listMax [a, b] = max a b := by simp [listMax]

theorem wit_hexRange_ne : hexRawRange witTiler 5 ≠ 0 := by
  rw [hexRawRange, wit_rawScores, listMin_pair, listMax_pair,
    min_eq_right EB_lt_EA.le, max_eq_left EB_lt_EA.le]
  exact sub_ne_zero.mpr (ne_of_gt EB_lt_EA)

theorem wit_hex_scores :
    (generateTexasHexData witTiler 5).map HexRecord.score =
      [1 + (1083814273 / 4294967295 - 0.5) * 0.06, 0] := by
  have hne : evalSources 1032.264 (-100.344) - evalSources 2032.264 (-100.344) ≠ 0 :=
    sub_ne_zero.mpr (ne_of_gt EB_lt_EA)
  have hzip : (witTiler.polygonToCells TEXAS_POLYGON 5).zip (hexRawScores witTiler 5) =
      [(0, evalSources 1032.264 (-100.344)), (1, evalSources 2032.264 (-100.344))] := rfl
  have hmin : listMin (hexRawScores witTiler 5) = evalSources 2032.264 (-100.344) := by
    rw [wit_rawScores, listMin_pair, min_eq_right EB_lt_EA.le]
  have hmax : listMax (hexRawScores witTiler 5) = evalSources 1032.264 (-100.344) := by
    rw [wit_rawScores, listMax_pair, max_eq_left EB_lt_EA.le]
  simp only [generateTexasHexData]
  rw [hzip, hmin, hmax]
  simp only [normalizePass, lcg42_1, lcg42_2, List.map_cons, List.map_nil]
  rw [div_self hne]
  simp only [sub_self, zero_div]
  norm_num [lcgOut, min_def, max_def]

theorem wit_cent0 : witTiler.cellToLatLng 0 = (1032.264, -100.344) := rfl

theorem wit_cent1 : witTiler.cellToLatLng 1 = (2032.264, -100.344) := rfl

theorem wit_temp_scores :
    (generateTexasTemperatureData witTiler 5).map TempRecord.score = [0, 0] := by
  simp only [generateTexasTemperatureData, wit_cells, tempPass, tempRecordAt,
    wit_cent0, wit_cent1, lcg99_1, lcg99_2, List.map_cons, List.map_nil,
    LAT_MIN, LAT_MAX, LNG_MIN, LNG_MAX, lcgOut]
  norm_num [min_def, max_def]

theorem wit_combinedRawList :
    combinedRawList witTiler 5 =
      [(1 + (1083814273 / 4294967295 - 0.5) * 0.06) * (1 - 0), 0 * (1 - 0)] := by
  rw [combinedRawList, combineRaw_eq_zipWith, wit_hex_scores, wit_temp_scores]
  rfl

theorem wit_combinedRange_ne : combinedRawRange witTiler 5 ≠ 0 := by
  rw [combinedRawRange, wit_combinedRawList, listMin_pair, listMax_pair]
  norm_num [min_def, max_def]

theorem wit_hex_ne_nil : generateTexasHexData witTiler 5 ≠ [] := by
  intro h
  have hl := hexData_length witTiler 5
  rw [h, wit_cells] at hl
  simp at hl

theorem wit_temp_ne_nil : generateTexasTemperatureData witTiler 5 ≠ [] := by
  intro h
  have hl := tempData_length witTiler 5
  rw [h, wit_cells] at hl
  simp at hl

theorem wit_combined_ne_nil : generateTexasCombinedData witTiler 5 ≠ [] := by
  intro h
  have hs : (generateTexasCombinedData witTiler 5).map CombinedRecord.score =
      (combineRaw (generateTexasHexData witTiler 5)
        (generateTexasTemperatureData witTiler 5)).map fun r =>
        (r - listMin (combineRaw (generateTexasHexData witTiler 5)
          (generateTexasTemperatureData witTiler 5))) /
          (listMax (combineRaw (generateTexasHexData witTiler 5)
            (generateTexasTemperatureData witTiler 5)) -
            listMin (combineRaw (generateTexasHexData witTiler 5)
              (generateTexasTemperatureData witTiler 5))) := by
    simp only [generateTexasCombinedData]
    rw [combinePass_map_score]
  rw [h] at hs
  have hr : combineRaw (generateTexasHexData witTiler 5)
      (generateTexasTemperatureData witTiler 5) =
      combinedRawList witTiler 5 := rfl
  rw [hr, wit_combinedRawList] at hs
  simp at hs

/-- Witness for C1: on the two-cell witness tiler the surplus raw range and
the combined raw range are both nonzero and each builder emits a record
whose score the theorem bounds. -/
theorem spec_C1_witness :
    hexRawRange witTiler 5 ≠ 0 ∧
    combinedRawRange witTiler 5 ≠ 0 ∧
    (∃ r ∈ generateTexasHexData witTiler 5, 0 ≤ r.score ∧ r.score ≤ 1) ∧
    (∃ r ∈ generateTexasTemperatureData witTiler 5, 0 ≤ r.score ∧ r.score ≤ 1) ∧
    (∃ r ∈ generateTexasCombinedData witTiler 5, 0 ≤ r.score ∧ r.score ≤ 1) := by
  refine ⟨wit_hexRange_ne, wit_combinedRange_ne, ?_, ?_, ?_⟩
  · obtain ⟨r, hr⟩ := List.exists_mem_of_ne_nil _ wit_hex_ne_nil
    exact ⟨r, hr, (spec_C1 witTiler 5).1 wit_hexRange_ne r hr⟩
  · obtain ⟨r, hr⟩ := List.exists_mem_of_ne_nil _ wit_temp_ne_nil
    exact ⟨r, hr, (spec_C1 witTiler 5).2.1 r hr⟩
  · obtain ⟨r, hr⟩ := List.exists_mem_of_ne_nil _ wit_combined_ne_nil
    exact ⟨r, hr, (spec_C1 witTiler 5).2.2 wit_hexRange_ne wit_combinedRange_ne r hr⟩

end MorphMap
